import Mathlib

/-
Verification development for the pricing sub-problem solver of the vrpy
repository (src/vrpy/sub_solve_pulp.py, function sub_solve_lp).

Modelling choices, each tied to a line of the Python source:

* Node identifiers are strings; the two distinguished nodes are the string
  literals "Source" and "Sink", exactly as in the source.
* A networkx DiGraph is modelled as a list of nodes, a list of edges
  (in iteration order) and attribute maps.  Every attribute access
  G.edges[i, j][k] or G.nodes[v][k] in Python can raise a KeyError when the
  attribute is absent; attributes are therefore Option-valued and every
  access goes through dictGet, which propagates PErr.keyError, the model of
  a Python KeyError / LookupError.
* The duals dictionary is a map Node to Option rational; duals[v] raises a
  KeyError exactly when the map yields none.
* The pulp MILP solver is an external oracle.  The model passes the
  assembled problem to a function producing an OracleResult: a reported
  status (prob.status after prob.solve()) and a valuation of the binary
  edge variables (varValue of each x[(i, j)]).  The quantity
  pulp.value(prob.objective) is the objective expression evaluated at that
  valuation, which is Objective.eval below.  The source never reads the
  status except to print it.
* Numeric attributes, duals and variable values are rationals; the
  tolerance -(10 ** -5) is the rational -(1/100000).
* The print calls of the source are presentation only and are not modelled.
-/

deriving instance DecidableEq for Except

attribute [local semireducible] Rat.mul Rat.add Rat.sub Rat.inv

namespace Vrpy

abbrev Node := String

abbrev Edge := Node × Node

/-- Edge attribute dictionary of the network: the source reads the keys
"cost" and "time" of G.edges[i, j]. -/
structure EdgeData where
  cost : Option ℚ
  time : Option ℚ
deriving DecidableEq

/-- Node attribute dictionary of the network: the source reads the keys
"demand", "lower" and "upper" of G.nodes[v]. -/
structure NodeData where
  demand : Option ℚ
  lower : Option ℚ
  upper : Option ℚ
deriving DecidableEq

/-- Model of the networkx DiGraph G: node list, edge list (iteration order
of G.nodes() and G.edges()), and the attribute dictionaries. -/
structure DiGraph where
  nodes : List Node
  edges : List Edge
  edgeData : Node → Node → EdgeData
  nodeData : Node → NodeData

/-- Model of G.successors(v): second endpoints of the edges leaving v, in
edge-list order. -/
def DiGraph.successors (G : DiGraph) (v : Node) : List Node :=
  (G.edges.filter (fun p => p.1 == v)).map (fun p => p.2)

/-- Model of G.predecessors(v): first endpoints of the edges entering v, in
edge-list order. -/
def DiGraph.predecessors (G : DiGraph) (v : Node) : List Node :=
  (G.edges.filter (fun p => p.2 == v)).map (fun p => p.1)

/-- Model of a Python KeyError / LookupError raised by a dictionary access;
the field records the missing key. -/
inductive PErr where
  | keyError (key : String)
deriving DecidableEq

/-- Model of a Python dictionary access d[k]: the value when present, a
KeyError naming the key otherwise. -/
def dictGet {α : Type} (o : Option α) (k : String) : Except PErr α :=
  match o with
  | some a => Except.ok a
  | none => Except.error (PErr.keyError k)

/-- Monadic map over a list in the Except monad: the model of a Python list
comprehension whose element expression can raise, evaluated left to right,
stopping at the first raise. -/
def mapE {α β : Type} (f : α → Except PErr β) : List α → Except PErr (List β)
  | [] => Except.ok []
  | a :: l => f a >>= fun b => mapE f l >>= fun bs => Except.ok (b :: bs)

/-- The linear constraints assembled by sub_solve_lp, kept as data exactly
mirroring the prob += lines of the source; the oracle consumes them
opaquely. -/
inductive Constr where
  | flowBalance (v : Node) (inflow outflow : List Edge)
  | maxStop (edges : List Edge) (bound : ℚ)
  | maxLoad (terms : List (ℚ × Edge)) (bound : ℚ)
  | maxTime (terms : List (ℚ × Edge)) (bound : ℚ)
  | timeWindowEdge (i j : Node) (time bigM : ℚ)
  | nodeUpper (v : Node) (bound : ℚ)
  | nodeLower (v : Node) (bound : ℚ)
deriving DecidableEq

/-- The objective edge_cost - dual_cost of the source, kept as the two term
lists of the lpSum calls, each term a coefficient paired with the edge whose
binary variable it multiplies. -/
structure Objective where
  posTerms : List (ℚ × Edge)
  negTerms : List (ℚ × Edge)
deriving DecidableEq

/-- Value of the objective expression at a valuation of the edge variables:
the model of pulp.value(prob.objective) after the solve. -/
def Objective.eval (o : Objective) (xval : Edge → ℚ) : ℚ :=
  (o.posTerms.map (fun t => t.1 * xval t.2)).sum
    - (o.negTerms.map (fun t => t.1 * xval t.2)).sum

/-- The assembled pulp problem: objective plus the list of constraints. -/
structure LpProblem where
  objective : Objective
  constraints : List Constr
deriving DecidableEq

/-- The pulp solver status codes (pulp.LpStatus). -/
inductive LpStatus where
  | optimal
  | infeasible
  | unbounded
  | undefined
  | notSolved
deriving DecidableEq

/-- What the external solver hands back: the reported status and the value
assigned to each binary edge variable (varValue, read by pulp.value). -/
structure OracleResult where
  status : LpStatus
  xval : Edge → ℚ

/-- One term of the edge_cost lpSum: G.edges[i, j]["cost"] * x[(i, j)]. -/
def costTerm (G : DiGraph) (p : Edge) : Except PErr (ℚ × Edge) :=
  dictGet (G.edgeData p.1 p.2).cost "cost" >>= fun c => Except.ok (c, p)

/-- The edge_cost lpSum of the source, one term per edge of G.edges(). -/
def edgeCostTerms (G : DiGraph) : Except PErr (List (ℚ × Edge)) :=
  mapE (costTerm G) G.edges

/-- The (v, j) pairs enumerated by the dual_cost comprehension: v ranges
over G.nodes() with v not in ["Source"], then j over G.successors(v).  The
comprehension evaluates duals[v] once per such pair, so a node with no
successor is never looked up. -/
def dualPairs (G : DiGraph) : List Edge :=
  (G.nodes.filter (fun v => v != "Source")).flatMap
    (fun v => (G.successors v).map (fun j => (v, j)))

/-- One term of the dual_cost lpSum: x[(v, j)] * duals[v]. -/
def dualTerm (duals : Node → Option ℚ) (p : Edge) : Except PErr (ℚ × Edge) :=
  dictGet (duals p.1) p.1 >>= fun d => Except.ok (d, p)

/-- The dual_cost lpSum of the source. -/
def dualCostTerms (G : DiGraph) (duals : Node → Option ℚ) :
    Except PErr (List (ℚ × Edge)) :=
  mapE (dualTerm duals) (dualPairs G)

/-- The flow balance constraints: for every v not in ["Source", "Sink"],
in_flow == out_flow. -/
def flowConstraints (G : DiGraph) : List Constr :=
  (G.nodes.filter (fun v => v != "Source" && v != "Sink")).map (fun v =>
    Constr.flowBalance v
      ((G.predecessors v).map (fun i => (i, v)))
      ((G.successors v).map (fun j => (v, j))))

/-- One term of the max_load lpSum: G.nodes[j]["demand"] * x[(i, j)], read
for every edge (i, j), whatever node j is. -/
def loadTerm (G : DiGraph) (p : Edge) : Except PErr (ℚ × Edge) :=
  dictGet (G.nodeData p.2).demand "demand" >>= fun d => Except.ok (d, p)

/-- The terms of the max_load constraint lpSum. -/
def loadTerms (G : DiGraph) : Except PErr (List (ℚ × Edge)) :=
  mapE (loadTerm G) G.edges

/-- One term of the max_time lpSum: G.edges[i, j]["time"] * x[(i, j)]. -/
def timeTerm (G : DiGraph) (p : Edge) : Except PErr (ℚ × Edge) :=
  dictGet (G.edgeData p.1 p.2).time "time" >>= fun tm => Except.ok (tm, p)

/-- The terms of the max_time constraint lpSum. -/
def timeTerms (G : DiGraph) : Except PErr (List (ℚ × Edge)) :=
  mapE (timeTerm G) G.edges

/-- The big-M constant of the time window constraints (M = 1000 in the
source, with the comment that it needs a better value). -/
def bigM : ℚ := 1000

/-- One time window ordering constraint, for edge (i, j):
t[i] + G.edges[i, j]["time"] is at most t[j] + M * (1 - x[(i, j)]). -/
def twEdgeC (G : DiGraph) (p : Edge) : Except PErr Constr :=
  dictGet (G.edgeData p.1 p.2).time "time" >>= fun tm =>
    Except.ok (Constr.timeWindowEdge p.1 p.2 tm bigM)

/-- The time window ordering constraints, one per edge. -/
def twEdgeConstraints (G : DiGraph) : Except PErr (List Constr) :=
  mapE (twEdgeC G) G.edges

/-- The pair of window bound constraints added for node v: first
t[v] <= G.nodes[v]["upper"], then t[v] >= G.nodes[v]["lower"], in that
order, for every node of G.nodes() including Source and Sink. -/
def twNodeC (G : DiGraph) (v : Node) : Except PErr (List Constr) :=
  dictGet (G.nodeData v).upper "upper" >>= fun up =>
    dictGet (G.nodeData v).lower "lower" >>= fun lo =>
      Except.ok [Constr.nodeUpper v up, Constr.nodeLower v lo]

/-- The window bound constraints for all nodes. -/
def twNodeConstraints (G : DiGraph) : Except PErr (List (List Constr)) :=
  mapE (twNodeC G) G.nodes

/-- Assembly of the pulp problem, following the source line by line:
objective (always), flow balance (always), then the four toggled constraint
families in source order.  Any KeyError raised by an attribute or dual
access aborts the assembly, as in Python. -/
def buildProblem (G : DiGraph) (duals : Node → Option ℚ)
    (max_stop max_load max_time time_windows : Bool) :
    Except PErr LpProblem :=
  edgeCostTerms G >>= fun ec =>
  dualCostTerms G duals >>= fun dc =>
  (if max_load then loadTerms G >>= fun lt => Except.ok [Constr.maxLoad lt 10]
    else Except.ok []) >>= fun loadC =>
  (if max_time then timeTerms G >>= fun tt => Except.ok [Constr.maxTime tt 60]
    else Except.ok []) >>= fun timeC =>
  (if time_windows then
      twEdgeConstraints G >>= fun twe =>
      twNodeConstraints G >>= fun twn =>
      Except.ok (twe ++ twn.flatten)
    else Except.ok []) >>= fun twC =>
  Except.ok { objective := { posTerms := ec, negTerms := dc },
              constraints := flowConstraints G
                ++ (if max_stop then [Constr.maxStop G.edges 4] else [])
                ++ loadC ++ timeC ++ twC }

/-- A route appended to the route collection: the source builds a
nx.DiGraph(name=route_id), adds each selected edge with its cost attribute,
and stores the accumulated total under the graph attribute "cost". -/
structure Route where
  name : Nat
  edges : List (Edge × ℚ)
  cost : ℚ
deriving DecidableEq

/-- The edges whose binary variable resolved to a value above 0.5, in
G.edges() iteration order: the selection test of the reconstruction loop. -/
def selectedEdges (G : DiGraph) (xval : Edge → ℚ) : List Edge :=
  G.edges.filter (fun p => decide ((1 : ℚ) / 2 < xval p))

/-- The cost attribute read performed inside the reconstruction loop for a
selected edge: G.edges[i, j]["cost"], paired with the edge. -/
def edgeWithCost (G : DiGraph) (p : Edge) : Except PErr (Edge × ℚ) :=
  dictGet (G.edgeData p.1 p.2).cost "cost" >>= fun c => Except.ok (p, c)

/-- The route reconstruction of the improving branch: collect the selected
edges with their costs and total them.  The running total_cost of the loop
equals the sum of the collected costs. -/
def buildRoute (G : DiGraph) (xval : Edge → ℚ) (route_id : Nat) :
    Except PErr Route :=
  mapE (edgeWithCost G) (selectedEdges G xval) >>= fun ec =>
    Except.ok { name := route_id, edges := ec,
                cost := (ec.map (fun t => t.2)).sum }

/-- The tolerance -(10 ** -5) of the improving-column test. -/
def epsNeg : ℚ := -(1 / 100000)

/-- The pricing step sub_solve_lp of src/vrpy/sub_solve_pulp.py.  The
solver is the opaque oracle argument; the source inspects only the
objective value pulp.value(prob.objective), that is the objective evaluated
at the valuation the oracle returned, and never branches on the reported
status.  When that value is below -(10 ** -5) it appends one reconstructed
route, with identifier len(routes) + 1, and returns (routes, True);
otherwise it returns (routes, False). -/
def sub_solve_lp (G : DiGraph) (duals : Node → Option ℚ) (routes : List Route)
    (max_stop max_load max_time time_windows : Bool)
    (oracle : LpProblem → OracleResult) :
    Except PErr (List Route × Bool) :=
  buildProblem G duals max_stop max_load max_time time_windows >>= fun prob =>
    if prob.objective.eval ((oracle prob).xval) < epsNeg then
      buildRoute G ((oracle prob).xval) (routes.length + 1) >>= fun rt =>
        Except.ok (routes ++ [rt], true)
    else Except.ok (routes, false)

/-
Concrete instances used to instantiate the theorems below: a three node
network Source to A to Sink with edge costs 5, edge times 1, and small node
attributes, together with dual vectors and constant oracles.
-/

/-- Example network: Source to A to Sink, both edges of cost 5 and time 1;
all node attributes present. -/
def Gex : DiGraph where
  nodes := ["Source", "A", "Sink"]
  edges := [("Source", "A"), ("A", "Sink")]
  edgeData := fun i j =>
    if i = "Source" ∧ j = "A" then { cost := some 5, time := some 1 }
    else if i = "A" ∧ j = "Sink" then { cost := some 5, time := some 1 }
    else { cost := none, time := none }
  nodeData := fun v =>
    if v = "A" then { demand := some 2, lower := some 0, upper := some 100 }
    else { demand := some 0, lower := some 0, upper := some 100 }

/-- Example network whose Sink node lacks the "upper" attribute. -/
def GmissUpper : DiGraph where
  nodes := ["Source", "A", "Sink"]
  edges := [("Source", "A"), ("A", "Sink")]
  edgeData := Gex.edgeData
  nodeData := fun v =>
    if v = "Sink" then { demand := some 0, lower := some 0, upper := none }
    else Gex.nodeData v

/-- Example network whose Sink node lacks the "demand" attribute. -/
def GmissDemand : DiGraph where
  nodes := ["Source", "A", "Sink"]
  edges := [("Source", "A"), ("A", "Sink")]
  edgeData := Gex.edgeData
  nodeData := fun v =>
    if v = "Sink" then { demand := none, lower := some 0, upper := some 100 }
    else Gex.nodeData v

/-- Dual vector with a dual of 11 on A: path reduced cost 10 - 11 = -1. -/
def dualsHigh : Node → Option ℚ := fun v =>
  if v = "A" then some 11 else if v = "Sink" then some 0 else none

/-- Dual vector with a dual of 3 on A: path reduced cost 10 - 3 = 7. -/
def dualsLow : Node → Option ℚ := fun v =>
  if v = "A" then some 3 else if v = "Sink" then some 0 else none

/-- Dual vector with no entry for Sink (a successor-free node of Gex). -/
def dualsNoSink : Node → Option ℚ := fun v =>
  if v = "A" then some 3 else none

/-- The everywhere-missing dual vector. -/
def dualsNone : Node → Option ℚ := fun _ => none

/-- Oracle reporting the given status and assigning 1 to every edge
variable. -/
def oracleOnes (st : LpStatus) : LpProblem → OracleResult := fun _ =>
  { status := st, xval := fun _ => 1 }

/-- Oracle reporting optimality and assigning 0 to every edge variable. -/
def oracleZeros : LpProblem → OracleResult := fun _ =>
  { status := LpStatus.optimal, xval := fun _ => 0 }

/-- The problem assembled from Gex and dualsHigh with every toggle off. -/
def probExHigh : LpProblem where
  objective :=
    { posTerms := [(5, ("Source", "A")), (5, ("A", "Sink"))],
      negTerms := [(11, ("A", "Sink"))] }
  constraints := [Constr.flowBalance "A" [("Source", "A")] [("A", "Sink")]]

/-- The problem assembled from Gex and dualsLow with every toggle off. -/
def probExLow : LpProblem where
  objective :=
    { posTerms := [(5, ("Source", "A")), (5, ("A", "Sink"))],
      negTerms := [(3, ("A", "Sink"))] }
  constraints := [Constr.flowBalance "A" [("Source", "A")] [("A", "Sink")]]

/-- The route reconstructed from Gex when every edge variable is 1. -/
def routeEx : Route where
  name := 1
  edges := [(("Source", "A"), 5), (("A", "Sink"), 5)]
  cost := 10

/-- Total cost function of the Gex edges. -/
def cEx : Edge → ℚ := fun _ => 5

/-- Total dual function matching dualsHigh on the Gex nodes other than
Source. -/
def dExHigh : Node → ℚ := fun v => if v = "A" then 11 else 0

/-- The all-ones valuation of the edge variables. -/
def oneval : Edge → ℚ := fun _ => 1

/-
Helper lemmas about the Except monad, mapE and the assembly stages.
-/

theorem exbind_ok {α β : Type} (a : α) (f : α → Except PErr β) :
    (Except.ok a >>= f : Except PErr β) = f a := rfl

theorem exbind_err {α β : Type} (e : PErr) (f : α → Except PErr β) :
    ((Except.error e : Except PErr α) >>= f) = (Except.error e : Except PErr β) := rfl

theorem exbind_ok_inv {α β : Type} {e : Except PErr α} {f : α → Except PErr β} {b : β}
    (h : (e >>= f) = Except.ok b) : ∃ a, e = Except.ok a ∧ f a = Except.ok b := by
  cases e with
  | error err => rw [exbind_err] at h; exact absurd h (by simp)
  | ok a => rw [exbind_ok] at h; exact ⟨a, rfl, h⟩

theorem mapE_nil {α β : Type} (f : α → Except PErr β) :
    mapE f [] = Except.ok [] := rfl

theorem mapE_cons {α β : Type} (f : α → Except PErr β) (a : α) (l : List α) :
    mapE f (a :: l) =
      (f a >>= fun b => mapE f l >>= fun bs => Except.ok (b :: bs)) := rfl

theorem mapE_ok_mem {α β : Type} {f : α → Except PErr β} :
    ∀ (l : List α) (bs : List β), mapE f l = Except.ok bs →
      ∀ a ∈ l, ∃ b, f a = Except.ok b := by
  intro l
  induction l with
  | nil =>
    intro bs _ a ha
    exact absurd ha (List.not_mem_nil a)
  | cons x xs ih =>
    intro bs h a ha
    rw [mapE_cons] at h
    cases hfx : f x with
    | error e =>
      rw [hfx, exbind_err] at h
      exact absurd h (by simp)
    | ok b =>
      rw [hfx] at h
      simp only [exbind_ok] at h
      cases hml : mapE f xs with
      | error e =>
        rw [hml, exbind_err] at h
        exact absurd h (by simp)
      | ok bs2 =>
        rcases List.mem_cons.mp ha with rfl | hmem
        · exact ⟨b, hfx⟩
        · exact ih bs2 hml a hmem

theorem mapE_ok_of_forall {α β : Type} {f : α → Except PErr β} :
    ∀ (l : List α), (∀ a ∈ l, ∃ b, f a = Except.ok b) →
      ∃ bs, mapE f l = Except.ok bs := by
  intro l
  induction l with
  | nil => exact fun _ => ⟨[], rfl⟩
  | cons x xs ih =>
    intro h
    obtain ⟨b, hb⟩ := h x (List.mem_cons_self x xs)
    obtain ⟨bs, hbs⟩ := ih (fun a ha => h a (List.mem_cons_of_mem x ha))
    refine ⟨b :: bs, ?_⟩
    rw [mapE_cons, hb]
    simp only [exbind_ok]
    rw [hbs]
    simp only [exbind_ok]

theorem mapE_map {α β : Type} {f : α → Except PErr β} {g : α → β} :
    ∀ (l : List α), (∀ a ∈ l, f a = Except.ok (g a)) →
      mapE f l = Except.ok (l.map g) := by
  intro l
  induction l with
  | nil => exact fun _ => rfl
  | cons x xs ih =>
    intro h
    rw [mapE_cons, h x (List.mem_cons_self x xs)]
    simp only [exbind_ok]
    rw [ih (fun a ha => h a (List.mem_cons_of_mem x ha))]
    simp only [exbind_ok]
    rfl

theorem buildProblem_eq (G : DiGraph) (duals : Node → Option ℚ)
    (max_stop max_load max_time time_windows : Bool) :
    buildProblem G duals max_stop max_load max_time time_windows =
      (edgeCostTerms G >>= fun ec =>
        dualCostTerms G duals >>= fun dc =>
        (if max_load then loadTerms G >>= fun lt => Except.ok [Constr.maxLoad lt 10]
          else Except.ok []) >>= fun loadC =>
        (if max_time then timeTerms G >>= fun tt => Except.ok [Constr.maxTime tt 60]
          else Except.ok []) >>= fun timeC =>
        (if time_windows then
            twEdgeConstraints G >>= fun twe =>
            twNodeConstraints G >>= fun twn =>
            Except.ok (twe ++ twn.flatten)
          else Except.ok []) >>= fun twC =>
        Except.ok { objective := { posTerms := ec, negTerms := dc },
                    constraints := flowConstraints G
                      ++ (if max_stop then [Constr.maxStop G.edges 4] else [])
                      ++ loadC ++ timeC ++ twC }) := rfl

theorem buildProblem_objective {G : DiGraph} {duals : Node → Option ℚ}
    {ms ml mt tw : Bool} {prob : LpProblem}
    (h : buildProblem G duals ms ml mt tw = Except.ok prob) :
    ∃ ec dc, edgeCostTerms G = Except.ok ec ∧ dualCostTerms G duals = Except.ok dc ∧
      prob.objective = { posTerms := ec, negTerms := dc } := by
  rw [buildProblem_eq] at h
  obtain ⟨ec, hec, h⟩ := exbind_ok_inv h
  obtain ⟨dc, hdc, h⟩ := exbind_ok_inv h
  obtain ⟨loadC, hload, h⟩ := exbind_ok_inv h
  obtain ⟨timeC, htime, h⟩ := exbind_ok_inv h
  obtain ⟨twC, htw, h⟩ := exbind_ok_inv h
  simp only [Except.ok.injEq] at h
  exact ⟨ec, dc, hec, hdc, by rw [← h]⟩

theorem buildProblem_loadTerms {G : DiGraph} {duals : Node → Option ℚ}
    {ms mt tw : Bool} {prob : LpProblem}
    (h : buildProblem G duals ms true mt tw = Except.ok prob) :
    ∃ lt, loadTerms G = Except.ok lt := by
  rw [buildProblem_eq] at h
  obtain ⟨ec, hec, h⟩ := exbind_ok_inv h
  obtain ⟨dc, hdc, h⟩ := exbind_ok_inv h
  obtain ⟨loadC, hload, h⟩ := exbind_ok_inv h
  rw [if_pos rfl] at hload
  obtain ⟨lt, hlt, _⟩ := exbind_ok_inv hload
  exact ⟨lt, hlt⟩

theorem buildProblem_twNode {G : DiGraph} {duals : Node → Option ℚ}
    {ms ml mt : Bool} {prob : LpProblem}
    (h : buildProblem G duals ms ml mt true = Except.ok prob) :
    ∃ twn, twNodeConstraints G = Except.ok twn := by
  rw [buildProblem_eq] at h
  obtain ⟨ec, hec, h⟩ := exbind_ok_inv h
  obtain ⟨dc, hdc, h⟩ := exbind_ok_inv h
  obtain ⟨loadC, hload, h⟩ := exbind_ok_inv h
  obtain ⟨timeC, htime, h⟩ := exbind_ok_inv h
  obtain ⟨twC, htw, h⟩ := exbind_ok_inv h
  rw [if_pos rfl] at htw
  obtain ⟨twe, htwe, htw2⟩ := exbind_ok_inv htw
  obtain ⟨twn, htwn, _⟩ := exbind_ok_inv htw2
  exact ⟨twn, htwn⟩

theorem edgeCostTerms_cost {G : DiGraph} {ec : List (ℚ × Edge)}
    (h : edgeCostTerms G = Except.ok ec) :
    ∀ p ∈ G.edges, ∃ c, (G.edgeData p.1 p.2).cost = some c := by
  intro p hp
  obtain ⟨b, hb⟩ := mapE_ok_mem G.edges ec h p hp
  cases hc : (G.edgeData p.1 p.2).cost with
  | none => simp [costTerm, hc, dictGet, exbind_err] at hb
  | some c => exact ⟨c, rfl⟩

theorem loadTerms_demand {G : DiGraph} {lt : List (ℚ × Edge)}
    (h : loadTerms G = Except.ok lt) :
    ∀ p ∈ G.edges, ∃ d, (G.nodeData p.2).demand = some d := by
  intro p hp
  obtain ⟨b, hb⟩ := mapE_ok_mem G.edges lt h p hp
  cases hd : (G.nodeData p.2).demand with
  | none => simp [loadTerm, hd, dictGet, exbind_err] at hb
  | some d => exact ⟨d, rfl⟩

theorem twNodeConstraints_attrs {G : DiGraph} {twn : List (List Constr)}
    (h : twNodeConstraints G = Except.ok twn) :
    ∀ v ∈ G.nodes, (∃ u, (G.nodeData v).upper = some u) ∧
      ∃ l, (G.nodeData v).lower = some l := by
  intro v hv
  obtain ⟨b, hb⟩ := mapE_ok_mem G.nodes twn h v hv
  cases hup : (G.nodeData v).upper with
  | none => simp [twNodeC, hup, dictGet, exbind_err] at hb
  | some u =>
    cases hlo : (G.nodeData v).lower with
    | none => simp [twNodeC, hup, hlo, dictGet, exbind_ok, exbind_err] at hb
    | some l => exact ⟨⟨u, rfl⟩, ⟨l, rfl⟩⟩

theorem dualPairs_fst {G : DiGraph} {p : Edge} (hp : p ∈ dualPairs G) :
    p.1 ∈ G.nodes ∧ p.1 ≠ "Source" := by
  unfold dualPairs at hp
  obtain ⟨v, hv, hpv⟩ := List.mem_flatMap.mp hp
  obtain ⟨j, _, hj2⟩ := List.mem_map.mp hpv
  obtain ⟨hv1, hv2⟩ := List.mem_filter.mp hv
  rw [← hj2]
  exact ⟨hv1, bne_iff_ne.mp hv2⟩

theorem dualCostTerms_dual {G : DiGraph} {duals : Node → Option ℚ}
    {dc : List (ℚ × Edge)} (h : dualCostTerms G duals = Except.ok dc) :
    ∀ p ∈ dualPairs G, ∃ d, duals p.1 = some d := by
  intro p hp
  obtain ⟨b, hb⟩ := mapE_ok_mem (dualPairs G) dc h p hp
  cases hd : duals p.1 with
  | none => simp [dualTerm, hd, dictGet, exbind_err] at hb
  | some d => exact ⟨d, rfl⟩

theorem buildRoute_eq (G : DiGraph) (xval : Edge → ℚ) (rid : Nat) :
    buildRoute G xval rid =
      (mapE (edgeWithCost G) (selectedEdges G xval) >>= fun ec =>
        Except.ok { name := rid, edges := ec,
                    cost := (ec.map (fun t => t.2)).sum }) := rfl

theorem buildRoute_ok_of_cost (G : DiGraph) (xval : Edge → ℚ) (rid : Nat)
    (hc : ∀ p ∈ G.edges, ∃ c, (G.edgeData p.1 p.2).cost = some c) :
    ∃ rt, buildRoute G xval rid = Except.ok rt ∧ rt.name = rid := by
  have hall : ∀ p ∈ selectedEdges G xval, ∃ b, edgeWithCost G p = Except.ok b := by
    intro p hp
    obtain ⟨c, hcx⟩ := hc p (List.mem_of_mem_filter hp)
    exact ⟨(p, c), by simp [edgeWithCost, hcx, dictGet, exbind_ok]⟩
  obtain ⟨ec, hec⟩ := mapE_ok_of_forall (selectedEdges G xval) hall
  refine ⟨{ name := rid, edges := ec, cost := (ec.map (fun t => t.2)).sum }, ?_, rfl⟩
  rw [buildRoute_eq, hec]
  rfl

theorem buildRoute_spec {G : DiGraph} {xval : Edge → ℚ} {rid : Nat} (c : Edge → ℚ)
    (hc : ∀ p ∈ G.edges, (G.edgeData p.1 p.2).cost = some (c p)) :
    buildRoute G xval rid = Except.ok
      { name := rid,
        edges := (selectedEdges G xval).map (fun p => (p, c p)),
        cost := ((selectedEdges G xval).map (fun p => c p)).sum } := by
  have hmap : mapE (edgeWithCost G) (selectedEdges G xval) =
      Except.ok ((selectedEdges G xval).map (fun p => (p, c p))) :=
    mapE_map _ (fun p hp => by
      simp [edgeWithCost, hc p (List.mem_of_mem_filter hp), dictGet, exbind_ok])
  rw [buildRoute_eq, hmap]
  simp only [exbind_ok]
  rw [List.map_map]
  rfl

theorem sub_solve_lp_eq (G : DiGraph) (duals : Node → Option ℚ)
    (routes : List Route) (ms ml mt tw : Bool)
    (oracle : LpProblem → OracleResult) :
    sub_solve_lp G duals routes ms ml mt tw oracle =
      (buildProblem G duals ms ml mt tw >>= fun prob =>
        if prob.objective.eval ((oracle prob).xval) < epsNeg then
          buildRoute G ((oracle prob).xval) (routes.length + 1) >>= fun rt =>
            Except.ok (routes ++ [rt], true)
        else Except.ok (routes, false)) := rfl

theorem sub_solve_lp_view {G : DiGraph} {duals : Node → Option ℚ}
    {routes : List Route} {ms ml mt tw : Bool}
    {oracle : LpProblem → OracleResult} {prob : LpProblem}
    (hprob : buildProblem G duals ms ml mt tw = Except.ok prob) :
    sub_solve_lp G duals routes ms ml mt tw oracle =
      (if prob.objective.eval ((oracle prob).xval) < epsNeg then
        buildRoute G ((oracle prob).xval) (routes.length + 1) >>= fun rt =>
          Except.ok (routes ++ [rt], true)
      else Except.ok (routes, false)) := by
  rw [sub_solve_lp_eq, hprob]
  rfl

theorem sum_map_flatMap {α β : Type} (l : List α) (f : α → List β) (g : β → ℚ) :
    ((l.flatMap f).map g).sum = (l.map (fun a => ((f a).map g).sum)).sum := by
  induction l with
  | nil => rfl
  | cons x xs ih => simp [List.flatMap_cons, List.map_append, List.sum_append, ih]

theorem sum_map_mul_left_rat {β : Type} (a : ℚ) (l : List β) (h : β → ℚ) :
    (l.map (fun x => a * h x)).sum = a * (l.map h).sum := by
  induction l with
  | nil => simp
  | cons x xs ih => simp [ih, mul_add]

/-
The claim theorems.
-/

/-- Claim C1 (confirmed): once the pricing problem is assembled, if the
objective value returned by the solver (the objective expression evaluated
at the assignment the solver returned, as pulp.value computes it) is
strictly below -(10 ** -5), exactly one new route is appended and the call
returns the extended collection together with true; if it is not below the
tolerance, the call returns the unchanged collection together with
false. -/
theorem C1_decision_policy (G : DiGraph) (duals : Node → Option ℚ)
    (routes : List Route) (max_stop max_load max_time time_windows : Bool)
    (oracle : LpProblem → OracleResult) (prob : LpProblem)
    (hprob : buildProblem G duals max_stop max_load max_time time_windows =
      Except.ok prob) :
    (prob.objective.eval ((oracle prob).xval) < epsNeg →
      ∃ rt, sub_solve_lp G duals routes max_stop max_load max_time time_windows
          oracle = Except.ok (routes ++ [rt], true)) ∧
    (¬ prob.objective.eval ((oracle prob).xval) < epsNeg →
      sub_solve_lp G duals routes max_stop max_load max_time time_windows
          oracle = Except.ok (routes, false)) := by
  constructor
  · intro hlt
    obtain ⟨ec, dc, hec, hdc, hobj⟩ := buildProblem_objective hprob
    obtain ⟨rt, hrt, hname⟩ := buildRoute_ok_of_cost G ((oracle prob).xval)
      (routes.length + 1) (edgeCostTerms_cost hec)
    refine ⟨rt, ?_⟩
    rw [sub_solve_lp_view hprob, if_pos hlt, hrt, exbind_ok]
  · intro hge
    rw [sub_solve_lp_view hprob, if_neg hge]

/-- Witness for C1: on the example network with a dual of 11 on A the
reduced cost is -1, below the tolerance, and the call appends one route. -/
theorem C1_decision_policy_witness :
    ∃ rt, sub_solve_lp Gex dualsHigh [] false false false false
        (oracleOnes LpStatus.optimal) = Except.ok ([] ++ [rt], true) :=
  (C1_decision_policy Gex dualsHigh [] false false false false
    (oracleOnes LpStatus.optimal) probExHigh (by decide)).1 (by decide)

/-- Claim C2 counterexample: a concrete call in which the oracle reports an
infeasible status while the objective evaluated at the returned assignment
is -1, below the tolerance.  The call appends a route and returns true, so
the claim that an infeasible status always yields the unchanged collection
and false is refuted: the source never reads the status. -/
theorem C2_counterexample_status_ignored :
    buildProblem Gex dualsHigh false false false false = Except.ok probExHigh ∧
    ((oracleOnes LpStatus.infeasible) probExHigh).status = LpStatus.infeasible ∧
    sub_solve_lp Gex dualsHigh [] false false false false
      (oracleOnes LpStatus.infeasible) = Except.ok ([routeEx], true) := by decide

/-- Claim C2 (corrected): the source never branches on the reported solver
status.  A call in which the oracle reports infeasible raises no error and
returns the unchanged collection with false provided the objective
evaluated at the returned assignment is not below the tolerance; with an
evaluated objective below the tolerance it appends a route instead. -/
theorem C2_infeasible_amended (G : DiGraph) (duals : Node → Option ℚ)
    (routes : List Route) (max_stop max_load max_time time_windows : Bool)
    (oracle : LpProblem → OracleResult) (prob : LpProblem)
    (hprob : buildProblem G duals max_stop max_load max_time time_windows =
      Except.ok prob)
    (_hstatus : (oracle prob).status = LpStatus.infeasible)
    (hge : ¬ prob.objective.eval ((oracle prob).xval) < epsNeg) :
    sub_solve_lp G duals routes max_stop max_load max_time time_windows oracle =
      Except.ok (routes, false) := by
  rw [sub_solve_lp_view hprob, if_neg hge]

/-- Witness for the amended C2: infeasible status with evaluated objective
7 leaves the collection unchanged and returns false. -/
theorem C2_infeasible_amended_witness :
    sub_solve_lp Gex dualsLow [] false false false false
        (oracleOnes LpStatus.infeasible) = Except.ok ([], false) :=
  C2_infeasible_amended Gex dualsLow [] false false false false
    (oracleOnes LpStatus.infeasible) probExLow (by decide) (by decide) (by decide)

/-- Claim C3 counterexample: the node Sink of the example network is
distinct from Source and absent from the dual mapping, yet the call
succeeds, because the dual of a node is only read once per successor and
Sink has no successors. -/
theorem C3_counterexample_successorless_node :
    "Sink" ∈ Gex.nodes ∧ "Sink" ≠ "Source" ∧ dualsNoSink "Sink" = none ∧
    sub_solve_lp Gex dualsNoSink [] false false false false oracleZeros =
      Except.ok ([], false) := by decide

/-- Claim C3 (corrected): for every node other than Source that has at
least one successor, a missing entry in the dual mapping makes the call
fail with a lookup error rather than return a result. -/
theorem C3_missing_dual_amended (G : DiGraph) (duals : Node → Option ℚ)
    (routes : List Route) (ms ml mt tw : Bool)
    (oracle : LpProblem → OracleResult) (v : Node)
    (hv : v ∈ G.nodes) (hvs : v ≠ "Source")
    (hsucc : G.successors v ≠ []) (hmiss : duals v = none) :
    ∃ e, sub_solve_lp G duals routes ms ml mt tw oracle = Except.error e := by
  cases hbp : buildProblem G duals ms ml mt tw with
  | error e => exact ⟨e, by rw [sub_solve_lp_eq, hbp, exbind_err]⟩
  | ok prob =>
    exfalso
    obtain ⟨ec, dc, hec, hdc, hobj⟩ := buildProblem_objective hbp
    obtain ⟨j, hj⟩ := List.exists_mem_of_ne_nil _ hsucc
    have hpair : (v, j) ∈ dualPairs G := by
      unfold dualPairs
      refine List.mem_flatMap.mpr ⟨v, ?_, ?_⟩
      · exact List.mem_filter.mpr ⟨hv, by rw [bne_iff_ne]; exact hvs⟩
      · exact List.mem_map.mpr ⟨j, hj, rfl⟩
    obtain ⟨d, hd⟩ := dualCostTerms_dual hdc (v, j) hpair
    rw [hmiss] at hd
    exact Option.noConfusion hd

/-- Witness for the amended C3: node A has a successor and no dual entry,
and the call fails with an error. -/
theorem C3_missing_dual_amended_witness :
    ∃ e, sub_solve_lp Gex dualsNone [] true false false false oracleZeros =
      Except.error e :=
  C3_missing_dual_amended Gex dualsNone [] true false false false oracleZeros
    "A" (by decide) (by decide) (by decide) (by decide)

/-- Claim C4 (confirmed): whatever the constraint toggles, the assembled
objective evaluates, at every valuation of the edge variables, to the sum
over all edges of cost times the edge variable minus the sum over every
node other than Source of its dual times the sum of the variables of the
edges leaving it. -/
theorem C4_objective_formula (G : DiGraph) (duals : Node → Option ℚ)
    (ms ml mt tw : Bool) (prob : LpProblem) (c : Edge → ℚ) (d : Node → ℚ)
    (hprob : buildProblem G duals ms ml mt tw = Except.ok prob)
    (hc : ∀ p ∈ G.edges, (G.edgeData p.1 p.2).cost = some (c p))
    (hd : ∀ v ∈ G.nodes, v ≠ "Source" → duals v = some (d v))
    (xval : Edge → ℚ) :
    prob.objective.eval xval =
      (G.edges.map (fun p => c p * xval p)).sum -
        ((G.nodes.filter (fun v => v != "Source")).map
          (fun v => d v * ((G.successors v).map (fun j => xval (v, j))).sum)).sum := by
  obtain ⟨ec, dc, hec, hdc, hobj⟩ := buildProblem_objective hprob
  have hec2 : edgeCostTerms G = Except.ok (G.edges.map (fun p => (c p, p))) :=
    mapE_map G.edges (fun p hp => by
      simp [costTerm, hc p hp, dictGet, exbind_ok])
  have hdc2 : dualCostTerms G duals =
      Except.ok ((dualPairs G).map (fun p => (d p.1, p))) :=
    mapE_map (dualPairs G) (fun p hp => by
      obtain ⟨h1, h2⟩ := dualPairs_fst hp
      simp [dualTerm, hd p.1 h1 h2, dictGet, exbind_ok])
  rw [hec] at hec2
  rw [hdc] at hdc2
  injection hec2 with hec3
  injection hdc2 with hdc3
  subst hec3
  subst hdc3
  rw [hobj]
  show ((G.edges.map (fun p => (c p, p))).map (fun t => t.1 * xval t.2)).sum -
      (((dualPairs G).map (fun p => (d p.1, p))).map (fun t => t.1 * xval t.2)).sum =
      (G.edges.map (fun p => c p * xval p)).sum -
        ((G.nodes.filter (fun v => v != "Source")).map
          (fun v => d v * ((G.successors v).map (fun j => xval (v, j))).sum)).sum
  congr 1
  · rw [List.map_map]
    rfl
  · rw [List.map_map]
    show ((dualPairs G).map (fun p : Edge => d p.1 * xval p)).sum = _
    unfold dualPairs
    rw [sum_map_flatMap]
    have hfun : ∀ a : Node,
        ((List.map (fun j => (a, j)) (G.successors a)).map
          (fun p : Edge => d p.1 * xval p)).sum =
        d a * ((G.successors a).map (fun j => xval (a, j))).sum := by
      intro a
      rw [List.map_map]
      exact sum_map_mul_left_rat (d a) (G.successors a) (fun j => xval (a, j))
    simp only [hfun]

/-- Witness for C4: the objective of the example problem evaluated at the
all-ones valuation matches the closed formula. -/
theorem C4_objective_formula_witness :
    probExHigh.objective.eval oneval =
      (Gex.edges.map (fun p => cEx p * oneval p)).sum -
        ((Gex.nodes.filter (fun v => v != "Source")).map
          (fun v => dExHigh v *
            ((Gex.successors v).map (fun j => oneval (v, j))).sum)).sum :=
  C4_objective_formula Gex dualsHigh false false false false probExHigh cEx
    dExHigh (by decide) (by decide) (by decide) oneval

/-- Claim C5 (confirmed): when an improving column is found, the appended
route consists exactly of the edges whose binary variable resolved above
0.5, each carrying its cost attribute, and its total cost is the sum of
those costs. -/
theorem C5_route_edges_and_cost (G : DiGraph) (duals : Node → Option ℚ)
    (routes : List Route) (ms ml mt tw : Bool)
    (oracle : LpProblem → OracleResult) (prob : LpProblem) (c : Edge → ℚ)
    (hprob : buildProblem G duals ms ml mt tw = Except.ok prob)
    (hc : ∀ p ∈ G.edges, (G.edgeData p.1 p.2).cost = some (c p))
    (hlt : prob.objective.eval ((oracle prob).xval) < epsNeg) :
    sub_solve_lp G duals routes ms ml mt tw oracle =
      Except.ok (routes ++
        [{ name := routes.length + 1,
           edges := (selectedEdges G ((oracle prob).xval)).map (fun p => (p, c p)),
           cost := ((selectedEdges G ((oracle prob).xval)).map
             (fun p => c p)).sum }], true) := by
  rw [sub_solve_lp_view hprob, if_pos hlt, buildRoute_spec c hc, exbind_ok]

/-- Witness for C5: the route appended on the example improving call is
exactly the selected edges with their costs and the summed total. -/
theorem C5_route_edges_and_cost_witness :
    sub_solve_lp Gex dualsHigh [] false false false false
        (oracleOnes LpStatus.optimal) =
      Except.ok ([] ++
        [{ name := ([] : List Route).length + 1,
           edges := (selectedEdges Gex
             ((oracleOnes LpStatus.optimal) probExHigh).xval).map
               (fun p => (p, cEx p)),
           cost := ((selectedEdges Gex
             ((oracleOnes LpStatus.optimal) probExHigh).xval).map
               (fun p => cEx p)).sum }], true) :=
  C5_route_edges_and_cost Gex dualsHigh [] false false false false
    (oracleOnes LpStatus.optimal) probExHigh cEx (by decide) (by decide)
    (by decide)

/-- Claim C6 (confirmed): when an improving column is found, the new route
carries the identifier length of the collection before the call plus
one. -/
theorem C6_route_identifier (G : DiGraph) (duals : Node → Option ℚ)
    (routes : List Route) (ms ml mt tw : Bool)
    (oracle : LpProblem → OracleResult) (prob : LpProblem)
    (hprob : buildProblem G duals ms ml mt tw = Except.ok prob)
    (hlt : prob.objective.eval ((oracle prob).xval) < epsNeg) :
    ∃ rt, sub_solve_lp G duals routes ms ml mt tw oracle =
        Except.ok (routes ++ [rt], true) ∧ rt.name = routes.length + 1 := by
  obtain ⟨ec, dc, hec, hdc, hobj⟩ := buildProblem_objective hprob
  obtain ⟨rt, hrt, hname⟩ := buildRoute_ok_of_cost G ((oracle prob).xval)
    (routes.length + 1) (edgeCostTerms_cost hec)
  exact ⟨rt, by rw [sub_solve_lp_view hprob, if_pos hlt, hrt, exbind_ok], hname⟩

/-- Witness for C6: on the example improving call the new route has
identifier 0 + 1. -/
theorem C6_route_identifier_witness :
    ∃ rt, sub_solve_lp Gex dualsHigh [] false false false false
        (oracleOnes LpStatus.optimal) = Except.ok ([] ++ [rt], true) ∧
      rt.name = ([] : List Route).length + 1 :=
  C6_route_identifier Gex dualsHigh [] false false false false
    (oracleOnes LpStatus.optimal) probExHigh (by decide) (by decide)

/-- Claim C7 (confirmed): every successful call extends the collection by
at most one appended route; the input collection is an unchanged initial
segment of the output. -/
theorem C7_append_only (G : DiGraph) (duals : Node → Option ℚ)
    (routes : List Route) (ms ml mt tw : Bool)
    (oracle : LpProblem → OracleResult) (res : List Route × Bool)
    (h : sub_solve_lp G duals routes ms ml mt tw oracle = Except.ok res) :
    ∃ tail, res.1 = routes ++ tail ∧ tail.length ≤ 1 := by
  cases hbp : buildProblem G duals ms ml mt tw with
  | error e =>
    rw [sub_solve_lp_eq, hbp, exbind_err] at h
    exact absurd h (by simp)
  | ok prob =>
    rw [sub_solve_lp_view hbp] at h
    by_cases hlt : prob.objective.eval ((oracle prob).xval) < epsNeg
    · rw [if_pos hlt] at h
      obtain ⟨rt, hrt, h2⟩ := exbind_ok_inv h
      simp only [Except.ok.injEq] at h2
      exact ⟨[rt], by rw [← h2], by simp⟩
    · rw [if_neg hlt] at h
      injection h with h3
      exact ⟨[], by rw [← h3]; simp, by simp⟩

/-- Witness for C7: a concrete non-improving call returns the collection
with an empty tail appended. -/
theorem C7_append_only_witness :
    ∃ tail, (([] : List Route), false).1 = ([] : List Route) ++ tail ∧
      tail.length ≤ 1 :=
  C7_append_only Gex dualsLow [] false false false false oracleZeros
    ([], false) (by decide)

/-- Claim C8 (confirmed): if a call returns false, the collection is
unchanged and the repeated call with the same network, duals, collection,
toggles and solver returns false again and leaves the collection
unchanged. -/
theorem C8_nonimprovement_idempotent (G : DiGraph) (duals : Node → Option ℚ)
    (routes routes2 : List Route) (ms ml mt tw : Bool)
    (oracle : LpProblem → OracleResult)
    (h : sub_solve_lp G duals routes ms ml mt tw oracle =
      Except.ok (routes2, false)) :
    routes2 = routes ∧
      sub_solve_lp G duals routes2 ms ml mt tw oracle =
        Except.ok (routes2, false) := by
  cases hbp : buildProblem G duals ms ml mt tw with
  | error e =>
    rw [sub_solve_lp_eq, hbp, exbind_err] at h
    exact absurd h (by simp)
  | ok prob =>
    rw [sub_solve_lp_view hbp] at h
    by_cases hlt : prob.objective.eval ((oracle prob).xval) < epsNeg
    · rw [if_pos hlt] at h
      obtain ⟨rt, hrt, h2⟩ := exbind_ok_inv h
      simp at h2
    · rw [if_neg hlt] at h
      injection h with h3
      injection h3 with h4 h5
      subst h4
      exact ⟨rfl, by rw [sub_solve_lp_view hbp, if_neg hlt]⟩

/-- Witness for C8: a concrete non-improving call, repeated, returns false
twice with the collection unchanged. -/
theorem C8_nonimprovement_idempotent_witness :
    ([] : List Route) = [] ∧
      sub_solve_lp Gex dualsLow [] false false false false oracleZeros =
        Except.ok ([], false) :=
  C8_nonimprovement_idempotent Gex dualsLow [] [] false false false false
    oracleZeros (by decide)

/-- Claim C9 (confirmed): with the time window toggle on, the lower and
upper attributes of every node, Source and Sink included, are read; a call
on a network in which any node lacks either attribute fails with a lookup
error. -/
theorem C9_time_windows_attr_lookup (G : DiGraph) (duals : Node → Option ℚ)
    (routes : List Route) (ms ml mt : Bool)
    (oracle : LpProblem → OracleResult) (v : Node) (hv : v ∈ G.nodes)
    (hmiss : (G.nodeData v).lower = none ∨ (G.nodeData v).upper = none) :
    ∃ e, sub_solve_lp G duals routes ms ml mt true oracle = Except.error e := by
  cases hbp : buildProblem G duals ms ml mt true with
  | error e => exact ⟨e, by rw [sub_solve_lp_eq, hbp, exbind_err]⟩
  | ok prob =>
    exfalso
    obtain ⟨twn, htwn⟩ := buildProblem_twNode hbp
    obtain ⟨⟨u, hu⟩, l, hl⟩ := twNodeConstraints_attrs htwn v hv
    rcases hmiss with hm | hm
    · rw [hm] at hl
      exact Option.noConfusion hl
    · rw [hm] at hu
      exact Option.noConfusion hu

/-- Witness for C9: the terminal node Sink lacking the upper attribute
makes a time window call fail. -/
theorem C9_time_windows_attr_lookup_witness :
    ∃ e, sub_solve_lp GmissUpper dualsLow [] true false false true oracleZeros =
      Except.error e :=
  C9_time_windows_attr_lookup GmissUpper dualsLow [] true false false
    oracleZeros "Sink" (by decide) (Or.inr (by decide))

/-- Claim C10 (confirmed): with the load toggle on, the demand attribute of
the head of every edge, Sink included, is read; a call on a network in
which any edge head lacks the demand attribute fails with a lookup
error. -/
theorem C10_max_load_demand_lookup (G : DiGraph) (duals : Node → Option ℚ)
    (routes : List Route) (ms mt tw : Bool)
    (oracle : LpProblem → OracleResult) (p : Edge) (hp : p ∈ G.edges)
    (hmiss : (G.nodeData p.2).demand = none) :
    ∃ e, sub_solve_lp G duals routes ms true mt tw oracle = Except.error e := by
  cases hbp : buildProblem G duals ms true mt tw with
  | error e => exact ⟨e, by rw [sub_solve_lp_eq, hbp, exbind_err]⟩
  | ok prob =>
    exfalso
    obtain ⟨lt, hlt⟩ := buildProblem_loadTerms hbp
    obtain ⟨d, hd⟩ := loadTerms_demand hlt p hp
    rw [hmiss] at hd
    exact Option.noConfusion hd

/-- Witness for C10: the edge into Sink whose head lacks the demand
attribute makes a load-capped call fail. -/
theorem C10_max_load_demand_lookup_witness :
    ∃ e, sub_solve_lp GmissDemand dualsLow [] true true false false
        oracleZeros = Except.error e :=
  C10_max_load_demand_lookup GmissDemand dualsLow [] true false false
    oracleZeros ("A", "Sink") (by decide) (by decide)

end Vrpy
